import Mathlib

/-!
Verification of the renderer core of `wasm-fast-renderer`
(`src/renderer/src/{types,ffmpeg,jobs,main}.rs`), as a shallow embedding.

Modelling conventions:
* Rust `u32`/`u64` millisecond and count fields are embedded as `Nat`,
  `i32` results of float-to-int casts as `Int` (with i32 saturation where
  the Rust `as i32` cast saturates).
* Rust `f32`/`f64` values are embedded as exact rationals (`ℚ`); decimal
  formatting (`format!("{}")`, `format!("{:.3}")`, `format!("{:.6}")`) is
  embedded by exact decimal printers.  For every quantity appearing in the
  claims the float computation is exact, so the rational model is faithful.
* `HashMap` collections are embedded as association lists; map iteration
  order is the list order.
* Effects (directory creation, downloads, process spawn, the child's
  stdout line stream, the exit status) are supplied by an explicit
  environment record, and the asynchronous worker of `submit_render` is
  embedded as the sequence of job-store writes it performs.
-/

attribute [local semireducible] Rat.add Rat.sub Rat.mul Rat.inv Nat.gcd

namespace Renderer

/-! ### String and number helpers (decimal formatting and parsing) -/

/-- Pad a natural number with leading zeros to the given width. -/
def padZeros (w : Nat) (n : Nat) : String :=
  let s := toString n
  String.mk (List.replicate (w - s.length) '0') ++ s

/-- Embedding of Rust `format!("{:.3}", ms as f64 / 1000.0)`: a
millisecond count printed as seconds with exactly three decimals.
Exact, because a `u64` millisecond count divided by 1000 rounds to a
`f64` whose three-decimal rendering is the exact decimal digits. -/
def fmt3 (ms : Nat) : String :=
  toString (ms / 1000) ++ "." ++ padZeros 3 (ms % 1000)

/-- Decimal digits of a rational in `[0, 1)`, up to `fuel` digits. -/
def fracDigits : Nat → ℚ → String
  | 0, _ => ""
  | fuel + 1, q =>
    if q = 0 then ""
    else
      let d : Nat := (q * 10).floor.toNat
      toString d ++ fracDigits fuel (q * 10 - (d : ℚ))

/-- Shortest decimal rendering of a nonnegative rational (finite
expansions only; 20 digits of fuel covers every value the compiler
produces). -/
def fmtQNonneg (r : ℚ) : String :=
  let ip := r.floor.toNat
  let f := fracDigits 20 (r - (r.floor : ℚ))
  toString ip ++ (if f = "" then "" else "." ++ f)

/-- Embedding of Rust `format!("{}", x)` for a float with a finite
decimal expansion (e.g. volume and alpha factors): `1` prints as `1`,
`1/2` as `0.5`. -/
def fmtQ (q : ℚ) : String :=
  if q < 0 then "-" ++ fmtQNonneg (-q) else fmtQNonneg q

/-- Embedding of Rust `format!("{:.6}", x)`: six decimals, rounding to
nearest (ties up; only used for the rotation angle, which no claim
inspects). -/
def fmt6 (q : ℚ) : String :=
  let sgn := if q < 0 then "-" else ""
  let r := if q < 0 then -q else q
  let n : Nat := (r * 1000000 + 1/2).floor.toNat
  sgn ++ toString (n / 1000000) ++ "." ++ padZeros 6 (n % 1000000)

/-
The byte-position-based string primitives of the Lean core library do
not reduce inside the kernel; the embeddings below therefore implement
the Rust string operations directly on the character list of a
`String`.  All strings involved are ASCII, where character and byte
indices agree.
-/

/-- Rust `str::starts_with`. -/
def strStartsWith (s p : String) : Bool := p.data.isPrefixOf s.data

/-- Rust `str::ends_with`. -/
def strEndsWith (s p : String) : Bool := p.data.isSuffixOf s.data

/-- Drop the first `n` characters. -/
def strDrop (s : String) (n : Nat) : String := String.mk (s.data.drop n)

/-- Drop the last `n` characters. -/
def strDropRight (s : String) (n : Nat) : String :=
  String.mk (s.data.take (s.data.length - n))

/-- Take the first `n` characters. -/
def strTake (s : String) (n : Nat) : String := String.mk (s.data.take n)

/-- Rust `str::trim` (ASCII whitespace). -/
def strTrim (s : String) : String :=
  String.mk (((s.data.dropWhile Char.isWhitespace).reverse.dropWhile
    Char.isWhitespace).reverse)

/-- One-pass left-to-right replacement of a pattern, with fuel (the
list length bounds the number of steps). -/
def replaceAux (pat rep : List Char) : Nat → List Char → List Char
  | 0, l => l
  | _, [] => []
  | fuel + 1, c :: rest =>
    if pat.isPrefixOf (c :: rest) then
      rep ++ replaceAux pat rep fuel ((c :: rest).drop pat.length)
    else c :: replaceAux pat rep fuel rest

/-- Rust `str::replace` (non-empty patterns, as used by the escaper). -/
def strReplace (s pat rep : String) : String :=
  String.mk (replaceAux pat.data rep.data s.data.length s.data)

/-- Rust `str::parse::<u64>` restricted to plain digit strings. -/
def strToNat? (s : String) : Option Nat :=
  if s.data ≠ [] ∧ s.data.all (fun c => c.isDigit) then
    some (s.data.foldl (fun a c => a * 10 + (c.toNat - 48)) 0)
  else none

/-- `true` iff every character is an ASCII digit. -/
def allDigits (cs : List Char) : Bool := cs.all (fun c => c.isDigit)

/-- Numeric value of a digit string. -/
def digitsVal (cs : List Char) : Nat :=
  cs.foldl (fun a c => a * 10 + (c.toNat - 48)) 0

/-- Unsigned decimal literal (digits, optionally one dot). -/
def parseDecRaw (s : String) : Option ℚ :=
  match s.data.splitOn '.' with
  | [a] =>
    if a.length != 0 && allDigits a then some ((digitsVal a : Nat) : ℚ)
    else none
  | [a, b] =>
    if (a.length != 0 || b.length != 0) && allDigits a && allDigits b then
      some ((digitsVal a : ℚ) + (digitsVal b : ℚ) / ((10 : ℚ) ^ b.length))
    else none
  | _ => none

/-- Embedding of Rust `str::parse::<f32>` restricted to plain decimal
literals (the forms the claims exercise; exponent / `inf` / `NaN`
spellings are not modelled). -/
def parseDecimal (s : String) : Option ℚ :=
  if strStartsWith s "-" then (parseDecRaw (strDrop s 1)).map Neg.neg
  else if strStartsWith s "+" then parseDecRaw (strDrop s 1)
  else parseDecRaw s

/-- Embedding of Rust `str::strip_suffix`. -/
def dropSuffix (suf : String) (s : String) : Option String :=
  if strEndsWith s suf then some (strDropRight s suf.data.length) else none

/-- Embedding of Rust `str::trim_end_matches("deg")`: remove every
trailing `deg`. -/
def dropDegSuffixAux : Nat → String → String
  | 0, s => s
  | fuel + 1, s =>
    if strEndsWith s "deg" && s.data.length ≥ 3 then
      dropDegSuffixAux fuel (strDropRight s 3)
    else s

def dropDegSuffix (s : String) : String := dropDegSuffixAux s.data.length s

/-- Embedding of Rust `str::find` for a pattern (character index of the
first occurrence; ASCII strings in practice, so byte and character
indices agree). -/
def findSubstrIdx (t pat : String) : Option Nat :=
  (List.range (t.data.length + 1)).find? (fun i => strStartsWith (strDrop t i) pat)

/-- Round half away from zero, as Rust `f32::round`. -/
def ratRound (q : ℚ) : Int :=
  if q < 0 then -((-q + 1/2).floor) else (q + 1/2).floor

/-- Truncation toward zero, as Rust `as i32` on a float. -/
def ratTrunc (q : ℚ) : Int :=
  if q < 0 then -((-q).floor) else q.floor

/-- Saturation of the Rust float-to-`i32` `as` cast. -/
def satI32 (n : Int) : Int :=
  if n < -(2 ^ 31) then -(2 ^ 31) else if 2 ^ 31 - 1 < n then 2 ^ 31 - 1 else n

/-- Rust `Ord::max` on `i32`. -/
def imax (a b : Int) : Int := if a ≤ b then b else a

/-- Rust `f32::abs`. -/
def qabs (q : ℚ) : ℚ := if q < 0 then -q else q

/-! ### Data model (`types.rs`) -/

structure Size where
  width : Nat
  height : Nat
deriving DecidableEq

/-- `TrackType` of `types.rs`: a closed set of four kinds. -/
inductive TrackType where
  | video
  | image
  | audio
  | text
deriving DecidableEq

/-- `Trim` of `types.rs`; both windows (`trim` and `display`) use this
shape.  The Rust fields are named `from`/`to` (`from` is a Lean
keyword, hence `fromMs`/`toMs`); both are optional millisecond
offsets. -/
structure Trim where
  fromMs : Option Nat := none
  toMs : Option Nat := none
deriving DecidableEq

/-- `Details` of `types.rs` (per-item rendering parameters).
Float-valued fields are rationals. -/
structure Details where
  src : Option String := none
  width : Option Nat := none
  height : Option Nat := none
  opacity : Option ℚ := none
  volume : Option ℚ := none
  left : Option String := none
  top : Option String := none
  transform : Option String := none
  brightness : Option ℚ := none
  flipX : Option Bool := none
  flipY : Option Bool := none
  rotate : Option String := none
  text : Option String := none
  fontFamily : Option String := none
  fontUrl : Option String := none
  fontSize : Option Nat := none
  color : Option String := none
  borderColor : Option String := none
  borderWidth : Option Nat := none
deriving DecidableEq

structure TrackItem where
  id : Option String := none
  kind : TrackType
  details : Option Details := none
  trim : Trim := {}
  display : Trim := {}
deriving DecidableEq

/-- `Design` of `types.rs`.  `trackItemsMap` is embedded as an
association list whose order is the map's enumeration order. -/
structure Design where
  id : Option String := none
  trackItems : List TrackItem := []
  trackItemsMap : List (String × TrackItem) := []
  size : Option Size := none
  fps : Option Nat := none
deriving DecidableEq

/-- The item selection rule used throughout `ffmpeg.rs` and `main.rs`:
the ordered list wins when non-empty, else the map's values. -/
def itemsOf (d : Design) : List TrackItem :=
  if d.trackItems ≠ [] then d.trackItems else d.trackItemsMap.map Prod.snd

/-! ### Design compiler (`ffmpeg.rs`) -/

structure BackendCaps where
  nvenc : Bool
deriving DecidableEq

structure BuiltCommand where
  args : List String
deriving DecidableEq

/-- `compute_duration_ms` of `ffmpeg.rs` lines 52-68: running maximum
of `trim.to.unwrap_or(0)` and `display.to.unwrap_or(0)` over the
selected items; `10_000` when that maximum is `0`. -/
def compute_duration_ms (d : Design) : Nat :=
  let maxEnd := (itemsOf d).foldl
    (fun m it => max (max m (it.trim.toMs.getD 0)) (it.display.toMs.getD 0)) 0
  if maxEnd = 0 then 10000 else maxEnd

/-- `parse_px` of `ffmpeg.rs` line 70: strip a `px` suffix, parse a
float, round, cast to `i32`, default `0`. -/
def parse_px (s : Option String) : Int :=
  ((s.bind (dropSuffix "px")).bind parseDecimal).map (fun q => satI32 (ratRound q))
    |>.getD 0

/-- `parse_scale` of `ffmpeg.rs` lines 71-74: value of the first
`scale(...)` group, default `1.0` (also on parse failure). -/
def parse_scale (s : Option String) : ℚ :=
  match s with
  | none => 1
  | some t =>
    match findSubstrIdx t "scale(" with
    | none => 1
    | some start =>
      let rest := strDrop t (start + 6)
      match rest.data.findIdx? (fun c => c = ')') with
      | none => 1
      | some e => (parseDecimal (strTake rest e)).getD 1

/-- Rust `f32::clamp(v, 0.0, 1.0)`: the lower bound when below it, the
upper bound when above it, else the value itself. -/
def qclamp01 (v : ℚ) : ℚ := if v < 0 then 0 else if 1 < v then 1 else v

/-- `opacity_alpha` of `ffmpeg.rs` line 75: `opacity.unwrap_or(100) / 100`
clamped to `[0, 1]`. -/
def opacity_alpha (o : Option ℚ) : ℚ :=
  qclamp01 (o.getD 100 / 100)

/-- `brightness_offset` of `ffmpeg.rs` line 76. -/
def brightness_offset (b : Option ℚ) : ℚ :=
  (b.getD 100 - 100) / 100

/-- The optional rotation segment of a visual chain
(`ffmpeg.rs` lines 144-146). -/
def rotateSegment (rot : Option String) : String :=
  match rot with
  | none => ""
  | some r =>
    match parseDecimal (dropDegSuffix (strTrim r)) with
    | none => ""
    | some deg => if 1/100 < qabs deg then ",rotate=" ++ fmt6 deg ++ "*PI/180" else ""

/-- The optional brightness segment (`ffmpeg.rs` lines 148-149). -/
def brightSegment (b : Option ℚ) : String :=
  let off := brightness_offset b
  if 1/1000 < qabs off then ",eq=brightness=" ++ fmtQ off else ""

/-- The optional alpha-multiply segment (`ffmpeg.rs` lines 150-152):
present exactly when `opacity_alpha < 0.999`. -/
def alphaSegment (o : Option ℚ) : String :=
  let a := opacity_alpha o
  if a < 999/1000 then ",colorchannelmixer=aa=" ++ fmtQ a else ""

/-- Scaled dimensions of a visual item (`ffmpeg.rs` lines 136-142):
declared size or canvas size, times the parsed scale factor,
truncated, floored to at least 1. -/
def scaledDims (d : Design) (it : TrackItem) : Int × Int :=
  let w := (it.details.bind Details.width).getD ((d.size.map Size.width).getD 1080)
  let h := (it.details.bind Details.height).getD ((d.size.map Size.height).getD 1920)
  let sc := parse_scale (it.details.bind Details.transform)
  (imax (satI32 (ratTrunc ((w : ℚ) * sc))) 1, imax (satI32 (ratTrunc ((h : ℚ) * sc))) 1)

/-- Everything of a visual item's chain before the alpha segment
(`ffmpeg.rs` lines 134-149). -/
def chainPre (d : Design) (it : TrackItem) (ffIdx : Nat) : String :=
  let (sw, sh) := scaledDims d it
  "[" ++ toString ffIdx ++ ":v]format=rgba"
    ++ ",scale=" ++ toString sw ++ ":" ++ toString sh
    ++ rotateSegment (it.details.bind Details.rotate)
    ++ brightSegment (it.details.bind Details.brightness)

/-- The per-visual-item filter chain (`ffmpeg.rs` lines 134-155),
ending in its `[v{ffIdx}]` label. -/
def visualChain (d : Design) (it : TrackItem) (ffIdx : Nat) : String :=
  chainPre d it ffIdx
    ++ alphaSegment (it.details.bind Details.opacity)
    ++ "[v" ++ toString ffIdx ++ "]"

/-- The overlay step of a visual item (`ffmpeg.rs` lines 157-164):
position from `parse_px`, visibility window from
`display.or(trim)`. -/
def overlayPart (last vlabel : String) (it : TrackItem) (durationMs : Nat)
    (out : String) : String :=
  let x := parse_px (it.details.bind Details.left)
  let y := parse_px (it.details.bind Details.top)
  let startMs := ((it.display.fromMs).or it.trim.fromMs).getD 0
  let endMs := ((it.display.toMs).or it.trim.toMs).getD durationMs
  "[" ++ last ++ "][" ++ vlabel ++ "]overlay=" ++ toString x ++ ":" ++ toString y
    ++ ":format=auto:enable='between(t," ++ fmt3 startMs ++ "," ++ fmt3 endMs
    ++ ")'[" ++ out ++ "]"

/-- The per-audio-item chain (`ffmpeg.rs` lines 167-178), ending in
its `[a{ffIdx}]` label. -/
def audioChain (it : TrackItem) (ffIdx : Nat) (durationMs : Nat) : String :=
  let vol := (it.details.bind Details.volume).getD 100 / 100
  let startMs := ((it.display.fromMs).or it.trim.fromMs).getD 0
  "[" ++ toString ffIdx ++ ":a]volume=" ++ fmtQ vol
    ++ (match it.trim.fromMs with
        | some f => ",atrim=start=" ++ fmt3 f ++ ",asetpts=PTS-STARTPTS"
        | none => "")
    ++ ",adelay=" ++ toString startMs ++ ":all=1"
    ++ ",atrim=0:" ++ fmt3 durationMs ++ ",asetpts=PTS-STARTPTS[a" ++ toString ffIdx ++ "]"

/-- One step of the per-asset filter construction (`ffmpeg.rs`
lines 130-182).  The accumulator is
(filter parts, audio labels, running video label). -/
def assetStep (d : Design) (durationMs : Nat)
    (acc : List String × List String × String)
    (e : Nat × TrackItem × String) : List String × List String × String :=
  let (parts, labels, last) := acc
  let (idx0, it, _) := e
  let ffIdx := idx0 + 1
  match it.kind with
  | TrackType.video =>
    let out := "m" ++ toString ffIdx
    (parts ++ [visualChain d it ffIdx,
               overlayPart last ("v" ++ toString ffIdx) it durationMs out],
     labels, out)
  | TrackType.image =>
    let out := "m" ++ toString ffIdx
    (parts ++ [visualChain d it ffIdx,
               overlayPart last ("v" ++ toString ffIdx) it durationMs out],
     labels, out)
  | TrackType.audio =>
    (parts ++ [audioChain it ffIdx durationMs], labels ++ ["a" ++ toString ffIdx], last)
  | TrackType.text => acc

/-- The fold over resolved assets, starting from the base canvas label
`0:v` (`ffmpeg.rs` lines 124-182). -/
def assetFold (d : Design) (durationMs : Nat)
    (assets : List (Nat × TrackItem × String)) : List String × List String × String :=
  assets.foldl (assetStep d durationMs) ([], [], "0:v")

/-- Escaping of drawtext content (`ffmpeg.rs` line 191): backslash,
single quote, colon. -/
def escapeText (t : String) : String :=
  strReplace (strReplace (strReplace t "\\" "\\\\") "'" "\\'") ":" "\\:"

/-- Rust `str::trim_start_matches('#')`. -/
def dropLeadingHashes (s : String) : String :=
  String.mk (s.toList.dropWhile (fun c => c = '#'))

/-- One text-overlay step (`ffmpeg.rs` lines 186-211).  The accumulator
is (running video label, drawtext parts).  Items without a text kind,
without an id, or without a font entry leave the accumulator
unchanged. -/
def textStep (fonts : List (String × String)) (durationMs : Nat)
    (acc : String × List String) (it : TrackItem) : String × List String :=
  match it.kind with
  | TrackType.text =>
    match it.id with
    | none => acc
    | some tid =>
      match fonts.lookup tid with
      | none => acc
      | some fontPath =>
        let (last, parts) := acc
        let txt := escapeText ((it.details.bind Details.text).getD "")
        let fontsize := (it.details.bind Details.fontSize).getD 48
        let x := parse_px (it.details.bind Details.left)
        let y := parse_px (it.details.bind Details.top)
        let alpha := opacity_alpha (it.details.bind Details.opacity)
        let color := (it.details.bind Details.color).getD "white"
        let fontcolor :=
          if strStartsWith color "#" then
            "0x" ++ dropLeadingHashes color ++ "@" ++ fmtQ alpha
          else color ++ "@" ++ fmtQ alpha
        let borderw := (it.details.bind Details.borderWidth).getD 0
        let bc := (it.details.bind Details.borderColor).getD "black"
        let bordercolor :=
          if strStartsWith bc "#" then "0x" ++ dropLeadingHashes bc else bc
        let startMs := it.display.fromMs.getD 0
        let endMs := it.display.toMs.getD durationMs
        let out := "txt" ++ tid
        (out, parts ++ ["[" ++ last ++ "]drawtext=fontfile=" ++ fontPath
          ++ ":text='" ++ txt ++ "':fontsize=" ++ toString fontsize
          ++ ":fontcolor=" ++ fontcolor
          ++ ":borderw=" ++ toString borderw ++ ":bordercolor=" ++ bordercolor
          ++ ":x=" ++ toString x ++ ":y=" ++ toString y
          ++ ":enable='between(t," ++ fmt3 startMs ++ "," ++ fmt3 endMs ++ ")'["
          ++ out ++ "]"])
  | _ => acc

/-- The fold over all items applying text overlays (`ffmpeg.rs`
lines 184-212). -/
def textFold (fonts : List (String × String)) (durationMs : Nat)
    (items : List TrackItem) (last0 : String) : String × List String :=
  items.foldl (textStep fonts durationMs) (last0, [])

/-- The audio mixing stage (`ffmpeg.rs` lines 219-227): nothing for no
audio labels, `anull` passthrough for one, `amix` with
`inputs=N:normalize=0` for two or more. -/
def mixParts (labels : List String) : List String :=
  match labels with
  | [] => []
  | [l] => ["[" ++ l ++ "]anull[aout]"]
  | _ =>
    [labels.foldl (fun acc l => acc ++ "[" ++ l ++ "]") ""
      ++ "amix=inputs=" ++ toString labels.length ++ ":normalize=0[aout]"]

/-- Input-argument assembly (`ffmpeg.rs` lines 108-120): image assets
loop and are truncated to the output duration; every asset becomes
one `-i` input. -/
def inputArgs (durationMs : Nat) (assets : List (Nat × TrackItem × String)) : List String :=
  assets.foldl (fun acc e =>
    let (_, it, path) := e
    acc ++ (match it.kind with
            | TrackType.image => ["-loop", "1", "-t", fmt3 durationMs]
            | _ => []) ++ ["-i", path]) []

/-- The output-mapping loop (`ffmpeg.rs` lines 233-246); the Bool is
the `mapped_audio` flag. -/
def mapSection (caps : BackendCaps) (fps : Nat)
    (maps : List (String × String)) : List String × Bool :=
  maps.foldl (fun acc m =>
    let (args, mapped) := acc
    let (src, kind) := m
    let args := args ++ ["-map", "[" ++ src ++ "]"]
    if kind = "v" then
      (args ++ (if caps.nvenc then ["-c:v", "h264_nvenc", "-preset", "p4"]
                else ["-c:v", "libx264", "-preset", "veryfast"])
            ++ ["-pix_fmt", "yuv420p", "-r", toString fps], mapped)
    else if kind = "a" then
      (args ++ ["-c:a", "aac", "-b:a", "192k"], true)
    else (args, mapped)) ([], false)

/-- The full filter-graph construction: asset chains, then text
overlays, then the mixing stage.  Returns
(all filter parts, audio labels, final video label). -/
def buildFilterGraph (d : Design) (durationMs : Nat)
    (assets : List (Nat × TrackItem × String))
    (fonts : List (String × String)) : List String × List String × String :=
  let (vaParts, labels, last1) := assetFold d durationMs assets
  let (last2, tParts) := textFold fonts durationMs (itemsOf d) last1
  (vaParts ++ tParts ++ mixParts labels, labels, last2)

/-- The global flags opening the command (`ffmpeg.rs` lines 91-92). -/
def buildHead (caps : BackendCaps) : List String :=
  ["-y", "-hide_banner", "-loglevel", "error"]
    ++ (if caps.nvenc then ["-hwaccel", "cuda"] else [])

/-- The synthesized black canvas as input 0 (`ffmpeg.rs` lines 101-105). -/
def buildCanvas (d : Design) (fps durationMs : Nat) : List String :=
  ["-f", "lavfi", "-i",
    "color=c=black:s=" ++ toString ((d.size.map Size.width).getD 1080) ++ "x"
      ++ toString ((d.size.map Size.height).getD 1920)
      ++ ":r=" ++ toString fps ++ ":d=" ++ fmtQ ((durationMs : ℚ) / 1000)]

/-- The stream-mapping list (`ffmpeg.rs` lines 215-227): the final
video label, plus the mixed audio label when audio chains exist. -/
def buildMaps (labels : List String) (vout : String) : List (String × String) :=
  [(vout, "v")] ++ (if labels = [] then [] else [("aout", "a")])

/-- The base-input audio fallback (`ffmpeg.rs` lines 247-250), added
exactly when no filter-graph audio was mapped. -/
def audioFallback (mappedAudio : Bool) : List String :=
  if mappedAudio then [] else ["-map", "0:a?", "-c:a", "aac", "-b:a", "192k"]

/-- `build_ffmpeg_command` of `ffmpeg.rs` lines 82-256.  The Rust
function returns `Result` but has no error path: the embedding keeps
the `Except` shape and always produces `.ok`. -/
def build_ffmpeg_command (workdir : String) (d : Design)
    (assets : List (Nat × TrackItem × String)) (caps : BackendCaps)
    (fonts : List (String × String)) : Except String BuiltCommand :=
  let fps := d.fps.getD 30
  let durationMs := compute_duration_ms d
  let (parts, labels, vout) := buildFilterGraph d durationMs assets fonts
  let fc := String.intercalate ";" parts
  let fcArgs := if fc = "" then [] else ["-filter_complex", fc]
  let (mArgs, mappedAudio) := mapSection caps fps (buildMaps labels vout)
  Except.ok ⟨buildHead caps ++ buildCanvas d fps durationMs
    ++ inputArgs durationMs assets ++ fcArgs ++ mArgs ++ audioFallback mappedAudio
    ++ ["-progress", "pipe:1", workdir ++ "/output.mp4"]⟩

/-! ### Job store (`jobs.rs`) -/

inductive JobStatus where
  | pending
  | running
  | completed
  | failed
deriving DecidableEq

/-- `Job` of `jobs.rs` (the `created_at` instant is not modelled; the
uuid is a `Nat`). -/
structure Job where
  id : Nat
  status : JobStatus
  progress : Nat
  output_path : Option String
  error : Option String
  workdir : String
deriving DecidableEq

/-- `Job::new`: a fresh record is `Pending` with progress `0`. -/
def Job.new (id : Nat) (workdir : String) : Job :=
  ⟨id, JobStatus.pending, 0, none, none, workdir⟩

structure StatusResponse where
  status : String
  progress : Nat
  url : Option String
  error : Option String
deriving DecidableEq

/-- `Job::to_status_response` of `jobs.rs` lines 33-48. -/
def Job.to_status_response (j : Job) (baseUrl : String) : StatusResponse :=
  { status :=
      match j.status with
      | JobStatus.pending => "PENDING"
      | JobStatus.running => "RUNNING"
      | JobStatus.completed => "COMPLETED"
      | JobStatus.failed => "FAILED"
    progress := j.progress
    url := j.output_path.map (fun _ =>
      baseUrl ++ "/render/" ++ toString j.id ++ "/output")
    error := j.error }

/-! ### Job executor and progress monitor (`main.rs` `submit_render` worker) -/

/-- One `store.update` call of the worker, by what it writes. -/
inductive StoreWrite where
  | fail (msg : String)
  | setRunning
  | setProgress (p : Nat)
  | complete (out : String)
deriving DecidableEq

/-- Application of one write to the job record (the closures passed to
`JobStore::update` in `main.rs`). -/
def applyWrite (j : Job) : StoreWrite → Job
  | StoreWrite.fail m => { j with status := JobStatus.failed, error := some m }
  | StoreWrite.setRunning => { j with status := JobStatus.running }
  | StoreWrite.setProgress p => { j with progress := p }
  | StoreWrite.complete out =>
    { j with status := JobStatus.completed, progress := 100, output_path := some out }

/-- The status carried by a write, if it writes one (`setProgress`
writes only the progress field). -/
def statusWriteOf : StoreWrite → Option JobStatus
  | StoreWrite.fail _ => some JobStatus.failed
  | StoreWrite.setRunning => some JobStatus.running
  | StoreWrite.setProgress _ => none
  | StoreWrite.complete _ => some JobStatus.completed

/-- The progress value carried by a `setProgress` write. -/
def progressWriteOf : StoreWrite → Option Nat
  | StoreWrite.setProgress p => some p
  | _ => none

/-- Progress-line extraction (`main.rs` lines 127-135):
`out_time_ms=<u64>` lines, trimmed and parsed. -/
def parseProgressVal (line : String) : Option Nat :=
  if strStartsWith line "out_time_ms=" then strToNat? (strTrim (strDrop line 12))
  else none

/-- Percentage published for one raw `out_time_ms` value
(`main.rs` lines 129-133): divide by 1000 when the raw value exceeds
`total × 1000` (microsecond heuristic), then
`clamp(elapsed / total × 100, 0, 100)` truncated to an integer. -/
def pctOf (total n : Nat) : Nat :=
  let m := if total * 1000 < n then n / 1000 else n
  min (m * 100 / total) 100

/-- Environment of effects observed by one worker run. -/
structure WorkerEnv where
  mkdir : Except String Unit
  download : String → Except String String
  spawn : Except String Unit
  stdoutLines : List String
  wait : Except String Bool
  exitStatusStr : String
deriving Inhabited

/-- The asset-resolution loop (`main.rs` lines 62-73): items without a
`src` are skipped without any download; a failing download aborts with
the formatted message; resolved items are numbered consecutively. -/
def resolveLoop (dl : String → Except String String) :
    List TrackItem → Nat → Except String (List (Nat × TrackItem × String))
  | [], _ => Except.ok []
  | it :: rest, idx =>
    match it.details.bind Details.src with
    | none => resolveLoop dl rest idx
    | some url =>
      match dl url with
      | Except.error e => Except.error ("download failed: " ++ e)
      | Except.ok path =>
        match resolveLoop dl rest (idx + 1) with
        | Except.error e => Except.error e
        | Except.ok tail => Except.ok ((idx, it, path) :: tail)

/-- The font-download loop (`main.rs` lines 77-88): text items with a
`fontUrl` are downloaded; entries keyed by the item id (later inserts
shadow earlier ones, hence prepending). -/
def fontLoop (dl : String → Except String String) :
    List TrackItem → Except String (List (String × String))
  | [] => Except.ok []
  | it :: rest =>
    match it.kind with
    | TrackType.text =>
      (match it.details.bind Details.fontUrl with
       | none => fontLoop dl rest
       | some url =>
         match dl url with
         | Except.error e => Except.error ("font download failed: " ++ e)
         | Except.ok path =>
           match fontLoop dl rest with
           | Except.error e => Except.error e
           | Except.ok tail =>
             Except.ok (match it.id with
                        | some tid => tail ++ [(tid, path)]
                        | none => tail))
    | _ => fontLoop dl rest

/-- Font lookup as `HashMap::get`: the last insert for a key wins. -/
def fontGet (fonts : List (String × String)) (tid : String) : Option String :=
  fonts.reverse.lookup tid

/-- The sequence of job-store writes performed by the spawned worker of
`submit_render` (`main.rs` lines 58-147), sequentialized in program
order.  The initial `Pending` record is written by `Job::new` +
`insert` before the worker starts and is therefore not part of this
list. -/
def workerWrites (workdir : String) (caps : BackendCaps) (d : Design)
    (env : WorkerEnv) : List StoreWrite :=
  match env.mkdir with
  | Except.error e => [StoreWrite.fail e]
  | Except.ok _ =>
    match resolveLoop env.download (itemsOf d) 0 with
    | Except.error e => [StoreWrite.fail e]
    | Except.ok assets =>
      if assets = [] then [StoreWrite.fail "no assets with 'src' found"] else
      match fontLoop env.download (itemsOf d) with
      | Except.error e => [StoreWrite.fail e]
      | Except.ok fonts =>
        match build_ffmpeg_command workdir d assets caps fonts with
        | Except.error e => [StoreWrite.fail ("build failed: " ++ e)]
        | Except.ok _ =>
          StoreWrite.setRunning ::
          match env.spawn with
          | Except.error e => [StoreWrite.fail ("spawn failed: " ++ e)]
          | Except.ok _ =>
            let total := compute_duration_ms d
            (env.stdoutLines.filterMap parseProgressVal).map
              (fun n => StoreWrite.setProgress (pctOf total n)) ++
            [match env.wait with
             | Except.ok true => StoreWrite.complete (workdir ++ "/output.mp4")
             | Except.ok false =>
               StoreWrite.fail ("ffmpeg exit status: " ++ env.exitStatusStr)
             | Except.error e => StoreWrite.fail ("wait failed: " ++ e)]

/-! ### Gateway queries (`main.rs` `get_status`, `get_output`) -/

inductive HttpError where
  | badRequest (msg : String)
  | notFound (msg : String)
  | internal (msg : String)
deriving DecidableEq

def HttpError.code : HttpError → Nat
  | HttpError.badRequest _ => 400
  | HttpError.notFound _ => 404
  | HttpError.internal _ => 500

/-- A response status in the 4xx range. -/
def isClientError (e : HttpError) : Prop := 400 ≤ e.code ∧ e.code < 500

/-- `get_status` of `main.rs` lines 152-158.  The uuid parse of the
external `uuid` crate is abstracted to its `Option` result. -/
def get_status (store : List (Nat × Job)) (baseUrl : String)
    (parsedId : Option Nat) : Except HttpError StatusResponse :=
  match parsedId with
  | none => Except.error (HttpError.badRequest "invalid id")
  | some uid =>
    match store.lookup uid with
    | some job => Except.ok (job.to_status_response baseUrl)
    | none => Except.error (HttpError.notFound "not found")

/-- `get_output` of `main.rs` lines 160-172; the file read is an
explicit effect, a successful response is (content type, bytes). -/
def get_output (readFile : String → Except String String)
    (store : List (Nat × Job)) (parsedId : Option Nat) :
    Except HttpError (String × String) :=
  match parsedId with
  | none => Except.error (HttpError.badRequest "invalid id")
  | some uid =>
    match store.lookup uid with
    | none => Except.error (HttpError.notFound "not found")
    | some job =>
      match job.output_path with
      | none => Except.error (HttpError.badRequest "not ready")
      | some path =>
        match readFile path with
        | Except.error e => Except.error (HttpError.internal e)
        | Except.ok bytes => Except.ok ("video/mp4", bytes)

/-! ### Spec-side definitions (for refinement comparisons) -/

/-- Modelled from the spec: the `to` values actually provided by an
item's trim and display windows. -/
def providedEnds (d : Design) : List Nat :=
  (itemsOf d).foldr (fun it acc => it.trim.toMs.toList ++ it.display.toMs.toList ++ acc) []

/-- The duration exactly as claim C2 words it: the maximum over the
provided `Trim.to` / `Display.to` values, and `10000` only when no
item provides either. -/
def claimDuration (d : Design) : Nat :=
  if providedEnds d = [] then 10000 else (providedEnds d).foldl max 0

/-- The amended duration: absent values count as `0`, and the default
`10000` applies whenever the resulting maximum is `0`. -/
def claimDurationFixed (d : Design) : Nat :=
  let m := (providedEnds d).foldl max 0
  if m = 0 then 10000 else m

/-- Number of visual (video/image) items a design selects. -/
def visualCount (d : Design) : Nat :=
  ((itemsOf d).filter (fun it =>
    it.kind = TrackType.video ∨ it.kind = TrackType.image)).length

/-- The argument list of a successful build (empty on error). -/
def builtArgs (r : Except String BuiltCommand) : List String :=
  match r with
  | Except.ok b => b.args
  | Except.error _ => []

/-! ### Concrete fixtures used by counterexamples and witnesses -/

def dEmpty : Design := {}

def itVid0 : TrackItem := { kind := TrackType.video }

/-- An audio-only item carrying a source. -/
def itAudSrc : TrackItem :=
  { kind := TrackType.audio, details := some { src := some "http://h/a.mp3" } }

/-- A design with zero visual items but one audio asset. -/
def dNoVisual : Design := { trackItems := [itAudSrc] }

def assetsNoVisual : List (Nat × TrackItem × String) := [(0, itAudSrc, "a.mp3")]

/-- A design whose only item explicitly provides `Trim.to = 0`. -/
def dZeroTo : Design :=
  { trackItems := [{ kind := TrackType.video, trim := { toMs := some 0 } }] }

/-! ### C1 — "no visual tracks" compile failure -/

/--
C1 (counterexample): the claim says a Design with zero visual
(Video/Image) items makes compilation fail with
CompileError("no visual tracks").  On the code, `build_ffmpeg_command`
has no failure path at all: compiling a design whose only item is an
audio track succeeds.
-/
theorem claim1_counterexample :
    visualCount dNoVisual = 0 ∧
    (build_ffmpeg_command "wd" dNoVisual assetsNoVisual ⟨false⟩ []).isOk = true := by
  exact ⟨rfl, rfl⟩

/--
C1 (amended): compilation never fails — `build_ffmpeg_command` returns
Ok for every Design, in particular for designs with zero visual items;
no CompileError("no visual tracks") exists in the code.
-/
theorem claim1_build_never_fails (wd : String) (d : Design)
    (assets : List (Nat × TrackItem × String)) (caps : BackendCaps)
    (fonts : List (String × String)) :
    (build_ffmpeg_command wd d assets caps fonts).isOk = true := rfl

/-! ### C2 — output duration -/

/-- The item-wise duration fold of `compute_duration_ms` equals a plain
`max`-fold over the provided window ends (absent ends contributing
nothing, since `unwrap_or(0)` is absorbed by `max`). -/
theorem durationFold_eq (l : List TrackItem) (m : Nat) :
    l.foldl (fun m it => max (max m (it.trim.toMs.getD 0)) (it.display.toMs.getD 0)) m
      = (l.foldr (fun it acc => it.trim.toMs.toList ++ it.display.toMs.toList ++ acc) []).foldl
          max m := by
  induction l generalizing m with
  | nil => rfl
  | cons it rest ih =>
    simp only [List.foldl_cons, List.foldr_cons, List.foldl_append]
    rw [ih]
    rcases it.trim.toMs with _ | a <;> rcases it.display.toMs with _ | b <;>
      simp [Option.getD]

/--
C2 (counterexample): the claim says the duration equals the maximum of
the provided `Trim.to` / `Display.to` values, with 10000 only when no
item provides either.  An item providing `Trim.to = 0` falsifies this:
the provided maximum is 0, yet the code returns 10000.
-/
theorem claim2_counterexample :
    compute_duration_ms dZeroTo ≠ claimDuration dZeroTo := by decide

/--
C2 (amended): the computed duration is the maximum over all track
items (from the ordered list if non-empty, else the map) of `Trim.to`
and `Display.to` with absent values treated as 0; whenever that
maximum is 0 — in particular when no item provides either value — the
duration is exactly 10000 ms.
-/
theorem claim2_duration (d : Design) :
    compute_duration_ms d = claimDurationFixed d := by
  unfold compute_duration_ms claimDurationFixed providedEnds
  rw [durationFold_eq]

/-! ### C6 — minimal image round-trip -/

/-- The minimal image item of claim C6: resolved src, `left="50px"`,
`top="100px"`, `opacity=50`, no trim or display windows. -/
def itMinImage : TrackItem :=
  { id := some "i1", kind := TrackType.image,
    details := some { src := some "http://x/img.png", opacity := some 50,
                      left := some "50px", top := some "100px" } }

def dMinImage : Design := { trackItems := [itMinImage] }

def assetsMinImage : List (Nat × TrackItem × String) := [(0, itMinImage, "img.png")]

/--
C6: compiling the minimal one-image design yields a filter graph that
is exactly one per-item chain with an alpha-multiply of 0.5 followed
by exactly one overlay of that item onto the canvas `[0:v]` at
position (50,100), gated by the visibility window
[0.000, 10.000] seconds (the 10000 ms default duration).
-/
theorem claim6_minimal_image :
    compute_duration_ms dMinImage = 10000 ∧
    (buildFilterGraph dMinImage (compute_duration_ms dMinImage) assetsMinImage []).1 =
      ["[1:v]format=rgba,scale=1080:1920,colorchannelmixer=aa=0.5[v1]",
       "[0:v][v1]overlay=50:100:format=auto:enable='between(t,0.000,10.000)'[m1]"] := by
  exact ⟨rfl, by decide⟩

/-! ### C7 — opacity threshold for the alpha-multiply step -/

/--
C7: a visual item's chain is its pre-alpha part, then the alpha
segment, then its label; the alpha segment is absent exactly for
opacity ≥ 99.9 (on the 0-100 scale, absent opacity meaning 100) and
otherwise present with the normalized alpha `opacity/100` clamped to
[0,1], which always lies in [0,1].
-/
theorem claim7_opacity_threshold (o : Option ℚ) (d : Design) (it : TrackItem) (i : Nat) :
    visualChain d it i
      = chainPre d it i ++ alphaSegment (it.details.bind Details.opacity)
        ++ "[v" ++ toString i ++ "]" ∧
    (999/10 ≤ o.getD 100 → alphaSegment o = "") ∧
    (o.getD 100 < 999/10 →
      alphaSegment o = ",colorchannelmixer=aa=" ++ fmtQ (opacity_alpha o)) ∧
    0 ≤ opacity_alpha o ∧ opacity_alpha o ≤ 1 := by
  refine ⟨rfl, ?_, ?_, ?_, ?_⟩
  · intro h
    have h1 : (999/1000 : ℚ) ≤ opacity_alpha o := by
      unfold opacity_alpha qclamp01
      split_ifs with h2 h3
      · linarith
      · norm_num
      · linarith
    simp only [alphaSegment]
    rw [if_neg (not_lt.mpr h1)]
  · intro h
    have h1 : opacity_alpha o < 999/1000 := by
      unfold opacity_alpha qclamp01
      split_ifs with h2 h3
      · norm_num
      · linarith
      · linarith
    simp only [alphaSegment]
    rw [if_pos h1]
  · unfold opacity_alpha qclamp01
    split_ifs with h2 h3 <;> [norm_num; norm_num; linarith]
  · unfold opacity_alpha qclamp01
    split_ifs with h2 h3 <;> [norm_num; norm_num; linarith]

/-! ### C5 — audio mixing policy -/

/-- The audio labels collected by the asset fold. -/
def audioLabelsOf (d : Design) (dms : Nat)
    (assets : List (Nat × TrackItem × String)) : List String :=
  (assetFold d dms assets).2.1

/-- The number of audio-kind entries among the resolved assets. -/
def audioCountOf (assets : List (Nat × TrackItem × String)) : Nat :=
  (assets.filter (fun e => e.2.1.kind == TrackType.audio)).length

/-- The asset fold appends one `a{index+1}` label per audio-kind
asset, in order, and nothing else. -/
theorem assetFold_labels_eq (d : Design) (dms : Nat)
    (l : List (Nat × TrackItem × String)) (acc : List String × List String × String) :
    (l.foldl (assetStep d dms) acc).2.1
      = acc.2.1 ++ (l.filter (fun e => e.2.1.kind == TrackType.audio)).map
          (fun e => "a" ++ toString (e.1 + 1)) := by
  induction l generalizing acc with
  | nil => simp
  | cons e rest ih =>
    obtain ⟨parts, labels, last⟩ := acc
    obtain ⟨idx0, it, path⟩ := e
    cases hk : it.kind <;>
      simp [List.foldl_cons, List.filter_cons, assetStep, hk, ih]

/-- A map list whose only entry is the video mapping leaves
`mapped_audio` false. -/
theorem mapSection_video_only (caps : BackendCaps) (fps : Nat) (v : String) :
    (mapSection caps fps [(v, "v")]).2 = false := by
  simp [mapSection]

/--
C5: for `N` audio-kind items the mixing stage emits exactly one `amix`
filter with `inputs=N` and `normalize=0` when `N ≥ 2`, a single
`anull` identity pass when `N = 1`, and nothing when `N = 0` — in
which case the command falls back to mapping the base input's audio
optionally via `0:a?` instead of a filter-graph audio label.
-/
theorem claim5_audio_mix (wd : String) (d : Design) (dms : Nat)
    (assets : List (Nat × TrackItem × String)) (caps : BackendCaps)
    (fonts : List (String × String)) :
    (audioLabelsOf d dms assets).length = audioCountOf assets ∧
    (2 ≤ audioCountOf assets → mixParts (audioLabelsOf d dms assets) =
      [(audioLabelsOf d dms assets).foldl (fun acc l => acc ++ "[" ++ l ++ "]") ""
        ++ "amix=inputs=" ++ toString (audioCountOf assets) ++ ":normalize=0[aout]"]) ∧
    (audioCountOf assets = 1 → ∃ l, audioLabelsOf d dms assets = [l] ∧
      mixParts (audioLabelsOf d dms assets) = ["[" ++ l ++ "]anull[aout]"]) ∧
    (audioCountOf assets = 0 → mixParts (audioLabelsOf d dms assets) = [] ∧
      ["-map", "0:a?", "-c:a", "aac", "-b:a", "192k"] <:+:
        builtArgs (build_ffmpeg_command wd d assets caps fonts)) := by
  have hlen : (audioLabelsOf d dms assets).length = audioCountOf assets := by
    unfold audioLabelsOf audioCountOf assetFold
    rw [assetFold_labels_eq]
    simp
  refine ⟨hlen, ?_, ?_, ?_⟩
  · intro hN
    rcases hLs : audioLabelsOf d dms assets with _ | ⟨l1, _ | ⟨l2, t⟩⟩
    · rw [hLs] at hlen; simp at hlen; omega
    · rw [hLs] at hlen; simp at hlen; omega
    · rw [hLs] at hlen
      rw [← hlen]
      rfl
  · intro hN
    rcases hLs : audioLabelsOf d dms assets with _ | ⟨l1, _ | ⟨l2, t⟩⟩
    · rw [hLs, hN] at hlen; simp at hlen
    · exact ⟨l1, rfl, rfl⟩
    · rw [hLs, hN] at hlen; simp at hlen
  · intro hN
    have hnil : audioLabelsOf d dms assets = [] := by
      rw [hN] at hlen
      exact List.eq_nil_of_length_eq_zero hlen
    refine ⟨by rw [hnil]; rfl, ?_⟩
    have hnil2 : (assetFold d (compute_duration_ms d) assets).2.1 = [] := by
      have h1 := assetFold_labels_eq d dms assets ([], [], "0:v")
      have h2 := assetFold_labels_eq d (compute_duration_ms d) assets ([], [], "0:v")
      unfold audioLabelsOf assetFold at hnil
      rw [h1] at hnil
      unfold assetFold
      rw [h2]
      simpa using hnil
    rcases hG : buildFilterGraph d (compute_duration_ms d) assets fonts
      with ⟨parts, labels, vout⟩
    have hlab : labels = [] := by
      have h4 : (buildFilterGraph d (compute_duration_ms d) assets fonts).2.1
          = (assetFold d (compute_duration_ms d) assets).2.1 := by
        unfold buildFilterGraph
        rcases assetFold d (compute_duration_ms d) assets with ⟨a, b, c⟩
        rfl
      rw [hG, hnil2] at h4
      exact h4
    subst hlab
    have hBM : buildMaps ([] : List String) vout = [(vout, "v")] := rfl
    rcases hM : mapSection caps (d.fps.getD 30) [(vout, "v")] with ⟨mA, mB⟩
    have hmB : mB = false := by
      have h5 := mapSection_video_only caps (d.fps.getD 30) vout
      rw [hM] at h5
      exact h5
    subst hmB
    simp only [build_ffmpeg_command, builtArgs, hG, hBM, hM]
    refine ⟨buildHead caps ++ buildCanvas d (d.fps.getD 30) (compute_duration_ms d)
      ++ inputArgs (compute_duration_ms d) assets
      ++ (if String.intercalate ";" parts = "" then []
          else ["-filter_complex", String.intercalate ";" parts]) ++ mA,
      ["-progress", "pipe:1", wd ++ "/output.mp4"], ?_⟩
    simp [audioFallback, List.append_assoc]

/-- One audio asset fixture. -/
def assetsOneAudio : List (Nat × TrackItem × String) := [(0, itAudSrc, "a.mp3")]

/-- Two audio assets fixture. -/
def assetsTwoAudio : List (Nat × TrackItem × String) :=
  [(0, itAudSrc, "a.mp3"), (1, itAudSrc, "b.mp3")]

/-- One video asset fixture. -/
def assetsOneVideo : List (Nat × TrackItem × String) := [(0, itVid0, "v.mp4")]

/--
C5 (witness): the three policies at two, one and zero audio assets. -/
theorem claim5_witness :
    (mixParts (audioLabelsOf dEmpty 10000 assetsTwoAudio) =
      [(audioLabelsOf dEmpty 10000 assetsTwoAudio).foldl
          (fun acc l => acc ++ "[" ++ l ++ "]") ""
        ++ "amix=inputs=" ++ toString (audioCountOf assetsTwoAudio)
        ++ ":normalize=0[aout]"]) ∧
    (∃ l, audioLabelsOf dEmpty 10000 assetsOneAudio = [l] ∧
      mixParts (audioLabelsOf dEmpty 10000 assetsOneAudio) = ["[" ++ l ++ "]anull[aout]"]) ∧
    (mixParts (audioLabelsOf dEmpty 10000 assetsOneVideo) = [] ∧
      ["-map", "0:a?", "-c:a", "aac", "-b:a", "192k"] <:+:
        builtArgs (build_ffmpeg_command "wd" dEmpty assetsOneVideo ⟨false⟩ [])) := by
  exact ⟨(claim5_audio_mix "wd" dEmpty 10000 assetsTwoAudio ⟨false⟩ []).2.1 (by decide),
         (claim5_audio_mix "wd" dEmpty 10000 assetsOneAudio ⟨false⟩ []).2.2.1 (by decide),
         (claim5_audio_mix "wd" dEmpty 10000 assetsOneVideo ⟨false⟩ []).2.2.2 (by decide)⟩

/-! ### C9 — text items without a resolved font -/

/-- The minimal image item again, paired with a fontless text item
that extends the display window to 20000 ms. -/
def itTextNoFont : TrackItem :=
  { id := some "t1", kind := TrackType.text,
    details := some { text := some "hi" },
    display := { toMs := some 20000 } }

def dImageAndText : Design := { trackItems := [itMinImage, itTextNoFont] }

def dImageOnly : Design := { trackItems := [itMinImage] }

/--
C9 (counterexample): the claim says the rest of the command is
produced as if the fontless text item were absent.  It is not: the
item's Display.to still participates in the duration computation, so
the built command differs (canvas duration 20 s vs 10 s, overlay
window end 20.000 vs 10.000) even though the item contributes no
drawtext filter.
-/
theorem claim9_counterexample :
    compute_duration_ms dImageAndText = 20000 ∧
    compute_duration_ms dImageOnly = 10000 ∧
    builtArgs (build_ffmpeg_command "wd" dImageAndText assetsMinImage ⟨false⟩ []) ≠
      builtArgs (build_ffmpeg_command "wd" dImageOnly assetsMinImage ⟨false⟩ []) := by
  refine ⟨rfl, rfl, ?_⟩
  decide

/--
C9 (amended): a text item whose identifier has no entry in the
font-path map (or that has no identifier) contributes no drawtext
filter and never causes a failure: the text-overlay stage is produced
exactly as if the item were absent.  The rest of the command is not,
in general, as if the item were absent, because the item still
participates in the duration computation.
-/
theorem claim9_text_skip (fonts : List (String × String)) (durationMs : Nat)
    (it : TrackItem) (hk : it.kind = TrackType.text)
    (hf : ∀ tid, it.id = some tid → fonts.lookup tid = none) :
    (∀ acc, textStep fonts durationMs acc it = acc) ∧
    (∀ pre post last0,
      textFold fonts durationMs (pre ++ it :: post) last0
        = textFold fonts durationMs (pre ++ post) last0) := by
  have hstep : ∀ acc, textStep fonts durationMs acc it = acc := by
    intro acc
    rcases hid : it.id with _ | tid
    · simp [textStep, hk, hid]
    · simp [textStep, hk, hid, hf tid hid]
  refine ⟨hstep, ?_⟩
  intro pre post last0
  unfold textFold
  rw [List.foldl_append, List.foldl_append, List.foldl_cons, hstep]

/--
C9 (witness): concrete skip of a fontless text item. -/
theorem claim9_witness :
    textStep [] 10000 ("0:v", []) itTextNoFont = ("0:v", []) ∧
    textFold [] 10000 ([itMinImage] ++ itTextNoFont :: []) "0:v"
      = textFold [] 10000 ([itMinImage] ++ []) "0:v" := by
  exact ⟨(claim9_text_skip [] 10000 itTextNoFont rfl
            (fun tid h => rfl)).1 ("0:v", []),
         (claim9_text_skip [] 10000 itTextNoFont rfl
            (fun tid h => rfl)).2 [itMinImage] [] "0:v"⟩

/-! ### C10 — src-less items and the "no assets" failure -/

/-- Whether an item carries a source URL. -/
def hasSrc (it : TrackItem) : Bool := ((it.details.bind Details.src)).isSome

/-- With every download succeeding, the resolution loop succeeds and
returns exactly the src-bearing items, numbered consecutively from the
starting index; src-less items are skipped without any download. -/
theorem resolveLoop_ok (dl : String → Except String String)
    (hdl : ∀ u, (dl u).isOk = true) :
    ∀ (items : List TrackItem) (k : Nat), ∃ l,
      resolveLoop dl items k = Except.ok l ∧
      l.map (fun e => e.2.1) = items.filter hasSrc ∧
      l.map (fun e => e.1) = List.range' k l.length := by
  intro items
  induction items with
  | nil => exact fun k => ⟨[], rfl, rfl, rfl⟩
  | cons it rest ih =>
    intro k
    rcases hsrc : it.details.bind Details.src with _ | url
    · obtain ⟨l, h1, h2, h3⟩ := ih k
      exact ⟨l, by simp [resolveLoop, hsrc, h1],
             by simp [List.filter_cons, hasSrc, hsrc, h2], h3⟩
    · rcases hdlu : dl url with e | path
      · exact absurd (hdl url) (by simp [hdlu, Except.isOk, Except.toBool])
      · obtain ⟨l, h1, h2, h3⟩ := ih (k + 1)
        refine ⟨(k, it, path) :: l, by simp [resolveLoop, hsrc, hdlu, h1], ?_, ?_⟩
        · simp [List.filter_cons, hasSrc, hsrc, h2]
        · simp [h3, List.range'_succ]

/-- If no item carries a source, the resolution loop downloads nothing
and returns the empty asset list, whatever the download oracle does. -/
theorem resolveLoop_no_src (dl : String → Except String String) :
    ∀ (items : List TrackItem) (k : Nat),
      (∀ it ∈ items, it.details.bind Details.src = none) →
      resolveLoop dl items k = Except.ok [] := by
  intro items
  induction items with
  | nil => exact fun k _ => rfl
  | cons it rest ih =>
    intro k h
    have hsrc := h it (List.mem_cons_self it rest)
    simp [resolveLoop, hsrc, ih k (fun x hx => h x (List.mem_cons_of_mem it hx))]

/--
C10: track items without a src (or without Details) are excluded from
asset resolution — never downloaded, never numbered as inputs (the
resolved list is exactly the src-bearing items with consecutive
indices, and all filter chains and inputs are built from that list
alone) — and when no item of any kind carries a src, the worker fails
the job with "no assets with 'src' found" before compilation, leaving
the job record Failed.
-/
theorem claim10_src_resolution (dl : String → Except String String)
    (items : List TrackItem) (wd : String) (caps : BackendCaps) (d : Design)
    (env : WorkerEnv) (jid : Nat) :
    ((∀ u, (dl u).isOk = true) → ∃ l,
      resolveLoop dl items 0 = Except.ok l ∧
      l.map (fun e => e.2.1) = items.filter hasSrc ∧
      l.map (fun e => e.1) = List.range l.length) ∧
    ((∀ it ∈ items, it.details.bind Details.src = none) →
      resolveLoop dl items 0 = Except.ok []) ∧
    (env.mkdir = Except.ok () →
      (∀ it ∈ itemsOf d, it.details.bind Details.src = none) →
      workerWrites wd caps d env = [StoreWrite.fail "no assets with 'src' found"] ∧
      ((workerWrites wd caps d env).foldl applyWrite (Job.new jid wd)).status
        = JobStatus.failed) := by
  refine ⟨?_, ?_, ?_⟩
  · intro hdl
    obtain ⟨l, h1, h2, h3⟩ := resolveLoop_ok dl hdl items 0
    exact ⟨l, h1, h2, by rw [h3, List.range_eq_range']⟩
  · exact resolveLoop_no_src dl items 0
  · intro hmk hns
    have hres := resolveLoop_no_src env.download (itemsOf d) 0 hns
    have hw : workerWrites wd caps d env
        = [StoreWrite.fail "no assets with 'src' found"] := by
      unfold workerWrites
      rw [hmk, hres]
      rfl
    exact ⟨hw, by rw [hw]; rfl⟩

/-- A design whose only items carry no src. -/
def dNoSrc : Design :=
  { trackItems := [{ kind := TrackType.video },
                   { kind := TrackType.text, id := some "t9" }] }

/-- A worker environment whose effects all succeed. -/
def envAllOk : WorkerEnv :=
  { mkdir := Except.ok (), download := fun _ => Except.ok "f",
    spawn := Except.ok (), stdoutLines := [], wait := Except.ok true,
    exitStatusStr := "exit status: 0" }

/--
C10 (witness): resolution of a mixed list keeps exactly the src item,
and a design with only src-less items makes the worker fail with the
"no assets" message. -/
theorem claim10_witness :
    (∃ l, resolveLoop envAllOk.download [itVid0, itAudSrc] 0 = Except.ok l ∧
      l.map (fun e => e.2.1) = [itVid0, itAudSrc].filter hasSrc ∧
      l.map (fun e => e.1) = List.range l.length) ∧
    (workerWrites "wd" ⟨false⟩ dNoSrc envAllOk
      = [StoreWrite.fail "no assets with 'src' found"] ∧
     ((workerWrites "wd" ⟨false⟩ dNoSrc envAllOk).foldl applyWrite
        (Job.new 7 "wd")).status = JobStatus.failed) := by
  exact ⟨(claim10_src_resolution envAllOk.download [itVid0, itAudSrc] "wd" ⟨false⟩
            dNoSrc envAllOk 7).1 (fun u => rfl),
         (claim10_src_resolution envAllOk.download [itVid0, itAudSrc] "wd" ⟨false⟩
            dNoSrc envAllOk 7).2.2 rfl (by decide)⟩

/-! ### C3 — job status lifecycle -/

/-- The compiler always succeeds (helper giving the `.ok` shape for
reduction of the worker's match). -/
theorem build_eq_ok (wd : String) (d : Design)
    (assets : List (Nat × TrackItem × String)) (caps : BackendCaps)
    (fonts : List (String × String)) :
    ∃ b, build_ffmpeg_command wd d assets caps fonts = Except.ok b := by
  unfold build_ffmpeg_command
  rcases buildFilterGraph d (compute_duration_ms d) assets fonts with ⟨p, l, v⟩
  rcases mapSection caps (d.fps.getD 30) (buildMaps l v) with ⟨mA, mB⟩
  exact ⟨_, rfl⟩

/-- Progress updates carry no status write. -/
theorem filterMap_status_progress (total : Nat) (raws : List Nat) :
    (raws.map (fun n => StoreWrite.setProgress (pctOf total n))).filterMap
      statusWriteOf = [] := by
  simp [List.filterMap_map, statusWriteOf, Function.comp]

/--
C3: for every design and every environment of effect outcomes, the
sequence of status values written to the job record — the initial
Pending of `Job::new`, then the worker's status writes — is a sublist
of `[Pending, Running, Completed]` or of `[Pending, Running, Failed]`:
Running is written at most once, Pending is never re-entered, and at
most one terminal status is ever written, as the last write.
-/
theorem claim3_status_monotone (wd : String) (caps : BackendCaps) (d : Design)
    (env : WorkerEnv) :
    List.Sublist
      (JobStatus.pending :: (workerWrites wd caps d env).filterMap statusWriteOf)
      [JobStatus.pending, JobStatus.running, JobStatus.completed] ∨
    List.Sublist
      (JobStatus.pending :: (workerWrites wd caps d env).filterMap statusWriteOf)
      [JobStatus.pending, JobStatus.running, JobStatus.failed] := by
  unfold workerWrites
  rcases env.mkdir with e | ⟨⟩
  · right; simp [statusWriteOf]
  rcases resolveLoop env.download (itemsOf d) 0 with e | assets
  · right; simp [statusWriteOf]
  by_cases hA : assets = []
  · right; simp [hA, statusWriteOf]
  simp only [if_neg hA]
  rcases fontLoop env.download (itemsOf d) with e | fonts
  · right; simp [statusWriteOf]
  obtain ⟨b, hb⟩ := build_eq_ok wd d assets caps fonts
  rcases env.spawn with e | ⟨⟩
  · right; simp [hb, statusWriteOf]
  rcases env.wait with e | success
  · right
    simp [hb, statusWriteOf, List.filterMap_append, filterMap_status_progress]
  rcases success with _ | _
  · right
    simp [hb, statusWriteOf, List.filterMap_append, filterMap_status_progress]
  · left
    simp [hb, statusWriteOf, List.filterMap_append, filterMap_status_progress]

/-! ### C4 — progress monotonicity and bounds -/

/-- Published percentages never exceed 100 (the clamp). -/
theorem pctOf_le_100 (total n : Nat) : pctOf total n ≤ 100 :=
  min_le_right _ _

/-- The published percentage is monotone in the raw elapsed value,
across the microsecond-normalization boundary. -/
theorem pctOf_mono (total : Nat) {a b : Nat} (h : a ≤ b) :
    pctOf total a ≤ pctOf total b := by
  unfold pctOf
  rcases Nat.eq_zero_or_pos total with hT | hT
  · subst hT; split_ifs <;> simp
  by_cases ha : total * 1000 < a
  · have hb : total * 1000 < b := lt_of_lt_of_le ha h
    simp only [if_pos ha, if_pos hb]
    exact min_le_min
      (Nat.div_le_div_right (Nat.mul_le_mul_right _ (Nat.div_le_div_right h))) le_rfl
  · by_cases hbb : total * 1000 < b
    · simp only [if_neg ha, if_pos hbb]
      have h1 : total ≤ b / 1000 :=
        (Nat.le_div_iff_mul_le (by norm_num)).mpr (by omega)
      have h2 : 100 ≤ b / 1000 * 100 / total := by
        calc 100 = total * 100 / total := by rw [Nat.mul_div_cancel_left _ hT]
        _ ≤ b / 1000 * 100 / total :=
          Nat.div_le_div_right (Nat.mul_le_mul_right _ h1)
      rw [min_eq_right h2]
      exact min_le_right _ _
    · simp only [if_neg ha, if_neg hbb]
      exact min_le_min (Nat.div_le_div_right (Nat.mul_le_mul_right _ h)) le_rfl

/--
C4: when the raw `out_time_ms` values parsed from the progress stream
are non-decreasing, the published progress values (the `setProgress`
writes, computed per the divide-by-1000 heuristic and the clamp) form
a non-decreasing sequence of integers bounded by 100, and whenever the
final job record is Completed its progress is exactly 100.
-/
theorem claim4_progress_monotone (wd : String) (caps : BackendCaps) (d : Design)
    (env : WorkerEnv)
    (h : (env.stdoutLines.filterMap parseProgressVal).Chain' (· ≤ ·)) :
    ((workerWrites wd caps d env).filterMap progressWriteOf).Chain' (· ≤ ·) ∧
    (∀ p ∈ (workerWrites wd caps d env).filterMap progressWriteOf, p ≤ 100) ∧
    (((workerWrites wd caps d env).foldl applyWrite (Job.new 0 wd)).status
        = JobStatus.completed →
      ((workerWrites wd caps d env).foldl applyWrite (Job.new 0 wd)).progress
        = 100) := by
  unfold workerWrites
  rcases env.mkdir with e | ⟨⟩
  · simp [progressWriteOf, applyWrite]
  rcases resolveLoop env.download (itemsOf d) 0 with e | assets
  · simp [progressWriteOf, applyWrite]
  by_cases hA : assets = []
  · simp [hA, progressWriteOf, applyWrite]
  simp only [if_neg hA]
  rcases fontLoop env.download (itemsOf d) with e | fonts
  · simp [progressWriteOf, applyWrite]
  obtain ⟨b, hb⟩ := build_eq_ok wd d assets caps fonts
  rcases env.spawn with e | ⟨⟩
  · simp [hb, progressWriteOf, applyWrite]
  have hchain : ((env.stdoutLines.filterMap parseProgressVal).map
      (fun n => pctOf (compute_duration_ms d) n)).Chain' (· ≤ ·) := by
    rw [List.chain'_map]
    exact h.imp (fun a b hab => pctOf_mono _ hab)
  have hstep : ∀ (t : StoreWrite) (ht : progressWriteOf t = none),
      ((StoreWrite.setRunning ::
        ((env.stdoutLines.filterMap parseProgressVal).map
          (fun n => StoreWrite.setProgress (pctOf (compute_duration_ms d) n)) ++
        [t])).filterMap progressWriteOf).Chain' (· ≤ ·) ∧
      (∀ p ∈ (StoreWrite.setRunning ::
        ((env.stdoutLines.filterMap parseProgressVal).map
          (fun n => StoreWrite.setProgress (pctOf (compute_duration_ms d) n)) ++
        [t])).filterMap progressWriteOf, p ≤ 100) := by
    intro t ht
    have hfm : (StoreWrite.setRunning ::
        ((env.stdoutLines.filterMap parseProgressVal).map
          (fun n => StoreWrite.setProgress (pctOf (compute_duration_ms d) n)) ++
        [t])).filterMap progressWriteOf
        = (env.stdoutLines.filterMap parseProgressVal).map
            (fun n => pctOf (compute_duration_ms d) n) := by
      rw [List.filterMap_cons]
      simp only [progressWriteOf, List.filterMap_append, List.filterMap_map]
      rw [show (progressWriteOf ∘ fun n =>
            StoreWrite.setProgress (pctOf (compute_duration_ms d) n))
          = some ∘ (fun n => pctOf (compute_duration_ms d) n) from rfl,
        List.filterMap_eq_map]
      simp [ht]
    refine ⟨by rw [hfm]; exact hchain, ?_⟩
    rw [hfm]
    intro p hp
    obtain ⟨n, hn, rfl⟩ := List.mem_map.mp hp
    exact pctOf_le_100 _ _
  rcases env.wait with e | success
  · obtain ⟨h1, h2⟩ := hstep (StoreWrite.fail ("wait failed: " ++ e)) rfl
    refine ⟨?_, ?_, ?_⟩
    · simpa [hb] using h1
    · simpa [hb] using h2
    · simp [hb, applyWrite, List.foldl_append]
  rcases success with _ | _
  · obtain ⟨h1, h2⟩ :=
      hstep (StoreWrite.fail ("ffmpeg exit status: " ++ env.exitStatusStr)) rfl
    refine ⟨?_, ?_, ?_⟩
    · simpa [hb] using h1
    · simpa [hb] using h2
    · simp [hb, applyWrite, List.foldl_append]
  · obtain ⟨h1, h2⟩ := hstep (StoreWrite.complete (wd ++ "/output.mp4")) rfl
    refine ⟨?_, ?_, ?_⟩
    · simpa [hb] using h1
    · simpa [hb] using h2
    · simp [hb, applyWrite, List.foldl_append]

/-- A worker environment that emits two increasing progress lines and
exits successfully. -/
def envProgress : WorkerEnv :=
  { mkdir := Except.ok (), download := fun _ => Except.ok "f",
    spawn := Except.ok (),
    stdoutLines := ["out_time_ms=1000", "frame=3", "out_time_ms=2500000"],
    wait := Except.ok true, exitStatusStr := "exit status: 0" }

/--
C4 (witness): a concrete run with increasing raw progress values. -/
theorem claim4_witness :
    ((workerWrites "wd" ⟨false⟩ dNoVisual envProgress).filterMap
      progressWriteOf).Chain' (· ≤ ·) ∧
    (∀ p ∈ (workerWrites "wd" ⟨false⟩ dNoVisual envProgress).filterMap
      progressWriteOf, p ≤ 100) ∧
    (((workerWrites "wd" ⟨false⟩ dNoVisual envProgress).foldl applyWrite
        (Job.new 0 "wd")).status = JobStatus.completed →
      ((workerWrites "wd" ⟨false⟩ dNoVisual envProgress).foldl applyWrite
        (Job.new 0 "wd")).progress = 100) :=
  claim4_progress_monotone "wd" ⟨false⟩ dNoVisual envProgress (by
    rw [show envProgress.stdoutLines.filterMap parseProgressVal
        = [1000, 2500000] by decide]
    simp)

/-! ### C8 — status and output query errors -/

/-- A fold over writes none of which is `complete` never sets the
output path. -/
theorem foldl_no_complete (ws : List StoreWrite)
    (h : ∀ w ∈ ws, ∀ s, w ≠ StoreWrite.complete s) (j0 : Job)
    (h0 : j0.output_path = none) :
    (ws.foldl applyWrite j0).output_path = none := by
  induction ws generalizing j0 with
  | nil => exact h0
  | cons w rest ih =>
    have hrest : ∀ x ∈ rest, ∀ s, x ≠ StoreWrite.complete s :=
      fun x hx => h x (List.mem_cons_of_mem _ hx)
    cases w with
    | fail m => exact ih hrest _ (by simpa [applyWrite] using h0)
    | setRunning => exact ih hrest _ (by simpa [applyWrite] using h0)
    | setProgress p => exact ih hrest _ (by simpa [applyWrite] using h0)
    | complete s => exact absurd rfl (h _ (List.mem_cons_self _ _) s)

/-- In every job state reachable from a fresh record by a prefix of
the worker's writes, a set output path implies status Completed: the
only write that records an output path is the terminal `complete`
write, which is always last. -/
theorem workerPrefix_output_completed (wd : String) (caps : BackendCaps)
    (d : Design) (env : WorkerEnv) (jid n : Nat)
    (hs : (((workerWrites wd caps d env).take n).foldl applyWrite
      (Job.new jid wd)).output_path.isSome = true) :
    (((workerWrites wd caps d env).take n).foldl applyWrite
      (Job.new jid wd)).status = JobStatus.completed := by
  have noc : ∀ (ws : List StoreWrite),
      (∀ w ∈ ws, ∀ s, w ≠ StoreWrite.complete s) →
      (((ws.take n).foldl applyWrite (Job.new jid wd)).output_path.isSome = true →
        ((ws.take n).foldl applyWrite (Job.new jid wd)).status
          = JobStatus.completed) := by
    intro ws hws hsome
    have := foldl_no_complete (ws.take n)
      (fun w hw => hws w (List.take_subset n ws hw)) (Job.new jid wd) rfl
    rw [this] at hsome
    simp at hsome
  revert hs
  unfold workerWrites
  rcases env.mkdir with e | ⟨⟩
  · exact noc _ (by intro w hw s; simp_all)
  rcases resolveLoop env.download (itemsOf d) 0 with e | assets
  · exact noc _ (by intro w hw s; simp_all)
  by_cases hA : assets = []
  · simp only [if_pos hA]
    exact noc _ (by intro w hw s; simp_all)
  simp only [if_neg hA]
  rcases fontLoop env.download (itemsOf d) with e | fonts
  · exact noc _ (by intro w hw s; simp_all)
  obtain ⟨b, hb⟩ := build_eq_ok wd d assets caps fonts
  simp only [hb]
  rcases env.spawn with e | ⟨⟩
  · exact noc _ (by intro w hw s; simp at hw; rcases hw with rfl | rfl <;> simp)
  rcases env.wait with e | success
  · refine noc _ ?_
    intro w hw s
    rcases List.mem_cons.mp hw with rfl | hw2
    · simp
    rcases List.mem_append.mp hw2 with hw3 | hw3
    · obtain ⟨m, _, rfl⟩ := List.mem_map.mp hw3; simp
    · simp at hw3; simp [hw3]
  rcases success with _ | _
  · refine noc _ ?_
    intro w hw s
    rcases List.mem_cons.mp hw with rfl | hw2
    · simp
    rcases List.mem_append.mp hw2 with hw3 | hw3
    · obtain ⟨m, _, rfl⟩ := List.mem_map.mp hw3; simp
    · simp at hw3; simp [hw3]
  · intro hs
    set pre := StoreWrite.setRunning ::
      (env.stdoutLines.filterMap parseProgressVal).map
        (fun m => StoreWrite.setProgress (pctOf (compute_duration_ms d) m)) with hpre
    have hws : StoreWrite.setRunning ::
        ((env.stdoutLines.filterMap parseProgressVal).map
          (fun m => StoreWrite.setProgress (pctOf (compute_duration_ms d) m)) ++
          [StoreWrite.complete (wd ++ "/output.mp4")])
        = pre ++ [StoreWrite.complete (wd ++ "/output.mp4")] := by
      rw [hpre]; rfl
    rw [hws] at hs ⊢
    rcases le_or_lt n pre.length with hn | hn
    · exfalso
      rw [List.take_append_of_le_length hn] at hs
      have hnone := foldl_no_complete (pre.take n)
        (fun w hw s => by
          have hw2 := List.take_subset n pre hw
          rw [hpre] at hw2
          rcases List.mem_cons.mp hw2 with rfl | hw3
          · simp
          · obtain ⟨m, _, rfl⟩ := List.mem_map.mp hw3; simp)
        (Job.new jid wd) rfl
      rw [hnone] at hs
      simp at hs
    · have hlen : (pre ++ [StoreWrite.complete (wd ++ "/output.mp4")]).length ≤ n := by
        simp; omega
      rw [List.take_of_length_le hlen, List.foldl_append]
      simp [applyWrite]

/--
C8: an unparseable identifier yields a 400 client error and an unknown
identifier a 404, for both the status and the output query; the output
query yields a 400 "not ready" client error for a job without a
recorded output path, returns the artifact bytes with content type
`video/mp4` when the job has one and the read succeeds, and — for
every job state reachable by the worker's writes — a recorded output
path is only ever present on a Completed job.
-/
theorem claim8_query_errors (store : List (Nat × Job)) (baseUrl : String)
    (readFile : String → Except String String) (uid : Nat) (job : Job)
    (path bytes : String) (wd : String) (caps : BackendCaps) (d : Design)
    (env : WorkerEnv) (jid n : Nat) :
    (get_status store baseUrl none
        = Except.error (HttpError.badRequest "invalid id") ∧
      isClientError (HttpError.badRequest "invalid id")) ∧
    (store.lookup uid = none →
      get_status store baseUrl (some uid)
          = Except.error (HttpError.notFound "not found") ∧
        isClientError (HttpError.notFound "not found")) ∧
    (get_output readFile store none
        = Except.error (HttpError.badRequest "invalid id")) ∧
    (store.lookup uid = none →
      get_output readFile store (some uid)
        = Except.error (HttpError.notFound "not found")) ∧
    (store.lookup uid = some job → job.output_path = none →
      get_output readFile store (some uid)
          = Except.error (HttpError.badRequest "not ready") ∧
        isClientError (HttpError.badRequest "not ready")) ∧
    (store.lookup uid = some job → job.output_path = some path →
      readFile path = Except.ok bytes →
      get_output readFile store (some uid) = Except.ok ("video/mp4", bytes)) ∧
    ((((workerWrites wd caps d env).take n).foldl applyWrite
        (Job.new jid wd)).output_path.isSome = true →
      (((workerWrites wd caps d env).take n).foldl applyWrite
        (Job.new jid wd)).status = JobStatus.completed) := by
  refine ⟨⟨rfl, by norm_num [isClientError, HttpError.code]⟩, ?_, rfl, ?_, ?_, ?_, ?_⟩
  · intro hl
    exact ⟨by simp [get_status, hl], by norm_num [isClientError, HttpError.code]⟩
  · intro hl
    simp [get_output, hl]
  · intro hl ho
    exact ⟨by simp [get_output, hl, ho], by norm_num [isClientError, HttpError.code]⟩
  · intro hl ho hr
    simp [get_output, hl, ho, hr]
  · exact workerPrefix_output_completed wd caps d env jid n

/-- A completed job record with a recorded artifact. -/
def jobDone : Job :=
  { id := 1, status := JobStatus.completed, progress := 100,
    output_path := some "p", error := none, workdir := "wd" }

/-- A small store: one completed job, one pending job. -/
def storeTwo : List (Nat × Job) := [(1, jobDone), (2, Job.new 2 "wd")]

/--
C8 (witness): concrete queries against the two-job store, and a
concrete completed worker run whose reachable states only expose an
output path once Completed. -/
theorem claim8_witness :
    (get_status storeTwo "b" none
        = Except.error (HttpError.badRequest "invalid id") ∧
      isClientError (HttpError.badRequest "invalid id")) ∧
    (get_status storeTwo "b" (some 3)
        = Except.error (HttpError.notFound "not found") ∧
      isClientError (HttpError.notFound "not found")) ∧
    (get_output (fun _ => Except.ok "B") storeTwo (some 2)
        = Except.error (HttpError.badRequest "not ready")) ∧
    (get_output (fun _ => Except.ok "B") storeTwo (some 1)
        = Except.ok ("video/mp4", "B")) ∧
    (((workerWrites "wd" ⟨false⟩ dNoVisual envProgress).take 10).foldl
        applyWrite (Job.new 0 "wd")).status = JobStatus.completed := by
  refine ⟨(claim8_query_errors storeTwo "b" (fun _ => Except.ok "B") 3
      (Job.new 2 "wd") "p" "B" "wd" ⟨false⟩ dNoVisual envProgress 0 10).1,
    (claim8_query_errors storeTwo "b" (fun _ => Except.ok "B") 3
      (Job.new 2 "wd") "p" "B" "wd" ⟨false⟩ dNoVisual envProgress 0 10).2.1
      (by decide),
    ((claim8_query_errors storeTwo "b" (fun _ => Except.ok "B") 2
      (Job.new 2 "wd") "p" "B" "wd" ⟨false⟩ dNoVisual envProgress 0 10).2.2.2.2.1
      (by decide) rfl).1,
    (claim8_query_errors storeTwo "b" (fun _ => Except.ok "B") 1
      jobDone "p" "B" "wd" ⟨false⟩ dNoVisual envProgress 0 10).2.2.2.2.2.1
      (by decide) rfl rfl,
    (claim8_query_errors storeTwo "b" (fun _ => Except.ok "B") 1
      jobDone "p" "B" "wd" ⟨false⟩ dNoVisual envProgress 0 10).2.2.2.2.2.2
      (by decide)⟩

/--
C7 (witness): at opacity 100 the alpha step is absent; at opacity 50
it is present with the normalized alpha. -/
theorem claim7_witness :
    alphaSegment (some 100) = "" ∧
    alphaSegment (some 50)
      = ",colorchannelmixer=aa=" ++ fmtQ (opacity_alpha (some 50)) := by
  exact ⟨(claim7_opacity_threshold (some 100) dEmpty itVid0 0).2.1 (by norm_num),
         (claim7_opacity_threshold (some 50) dEmpty itVid0 0).2.2.1 (by norm_num)⟩

end Renderer

